import Mathlib

/-!
Verification of the `alphamodel` data pipeline (`alphamodel/model.py`).

The pandas data frames of `Model._fetch_return_data` are shallowly embedded
as `DF`: an ordered date index (`rows : List Nat`), an ordered column list
(`cols : List String`), and an entry function where `none` plays the role of
a missing value (NaN).  Rational numbers stand in for floats; following the
usual idealization, the non-finite float values (NaN from `np.log` of a
negative number, infinities from division by zero) are all conflated with
the missing value `none`, and the float literals `0.02`, `0.9`, `-0.5`,
`2.0` of the source are read as exact rationals.  `np.log` itself only ever
feeds the `sigmas` matrix, whose numeric values are never inspected by the
pipeline, so the embedding is parameterized by an arbitrary function
`log : ℚ → ℚ` standing for the restriction of `np.log` to positive inputs.
-/

/-- Insert a natural number into a sorted duplicate-free list, keeping it
sorted and duplicate-free.  Used to model the sorted pandas date index. -/
def insertSorted (x : Nat) : List Nat → List Nat
  | [] => [x]
  | a :: l => if x < a then x :: a :: l else if x = a then a :: l else a :: insertSorted x l

/-- Sort a list of dates ascending and drop duplicates: the index produced by
a pandas outer join / `Index.union` of date indexes. -/
def sortDedup (l : List Nat) : List Nat :=
  l.foldr insertSorted []

/-- Helper for `firstDedup`: drop the elements already seen. -/
def firstDedupAux (seen : List String) : List String → List String
  | [] => []
  | a :: l => if a ∈ seen then firstDedupAux seen l else a :: firstDedupAux (a :: seen) l

/-- Keep the first occurrence of every element, dropping later duplicates:
the key order of a python `dict` built by `dict(zip(keys, ...))`. -/
def firstDedup (l : List String) : List String :=
  firstDedupAux [] l

/-- Union of two column indexes.  pandas keeps the left order when the two
column indexes coincide, which is the only case arising in this pipeline. -/
def colUnion (a b : List String) : List String :=
  a ++ b.filter (fun c => decide (c ∉ a))

/-- A pandas `DataFrame` of floats: an ordered date index, an ordered column
index, and an entry function (`none` = NaN).  Entries outside
`rows × cols` are irrelevant. -/
structure DF where
  rows : List Nat
  cols : List String
  entry : Nat → String → Option ℚ

instance : Inhabited DF := ⟨⟨[], [], fun _ _ => none⟩⟩

/-- Source `df.isnull().sum()` for one column: number of index entries whose value
is missing. -/
def colNulls (df : DF) (c : String) : Nat :=
  (df.rows.filter (fun d => (df.entry d c).isNone)).length

/-- Source `df.isnull().sum(1)` for one row: number of columns whose value at that
date is missing. -/
def rowNulls (df : DF) (d : Nat) : Nat :=
  (df.cols.filter (fun c => (df.entry d c).isNone)).length

/-- Source `df.loc[:, ~df.columns.isin(bad)]`: drop the listed columns. -/
def DF.dropColsIn (df : DF) (bad : List String) : DF :=
  { df with cols := df.cols.filter (fun c => decide (c ∉ bad)) }

/-- Source `df.loc[~df.index.isin(bad)]`: drop the listed dates. -/
def DF.dropRowsIn (df : DF) (bad : List Nat) : DF :=
  { df with rows := df.rows.filter (fun d => decide (d ∉ bad)) }

/-- Source `df.iloc[1:]`: drop the first row. -/
def DF.dropFirstRow (df : DF) : DF :=
  { df with rows := df.rows.tail }

/-- Source `df.iloc[:, :-1]`: drop the last column. -/
def DF.dropLastCol (df : DF) : DF :=
  { df with cols := df.cols.dropLast }

/-- Elementwise map over the entries of a frame (a numpy ufunc). -/
def DF.mapEntries (f : Option ℚ → Option ℚ) (df : DF) : DF :=
  { df with entry := fun d c => f (df.entry d c) }

/-- Forward-fill evaluation: walk the index in order, carrying the last
non-missing value of the column, and stop at the requested date. -/
def ffillVal (f : Nat → Option ℚ) : Option ℚ → List Nat → Nat → Option ℚ
  | _, [], _ => none
  | carry, r :: rs, d =>
    let v := match f r with | some x => some x | none => carry
    if r = d then v else ffillVal f v rs d

/-- Source `df.fillna(method='ffill')`: forward-fill each column independently. -/
def DF.ffill (df : DF) : DF :=
  { df with entry := fun d c => ffillVal (fun r => df.entry r c) none df.rows d }

/-- The index entry immediately before `d` in the index (the positional
predecessor used by `diff()` and `shift(1)`). -/
def prevRow : List Nat → Nat → Option Nat
  | [], _ => none
  | [_], _ => none
  | a :: b :: rs, d => if b = d then some a else prevRow (b :: rs) d

/-- Source `df.diff()`: first difference along the index; the first row and any row
with a missing neighbour becomes missing. -/
def DF.diffR (df : DF) : DF :=
  { df with entry := fun d c =>
      match prevRow df.rows d with
      | none => none
      | some d0 =>
        match df.entry d c, df.entry d0 c with
        | some x, some y => some (x - y)
        | _, _ => none }

/-- Source `df.shift(1)`: shift values one step down the index. -/
def DF.shiftR (df : DF) : DF :=
  { df with entry := fun d c => (prevRow df.rows d).bind (fun d0 => df.entry d0 c) }

/-- Elementwise product of two frames with pandas alignment: labels present
in only one operand give a missing value. -/
def DF.mulAlign (a b : DF) : DF :=
  { rows := sortDedup (a.rows ++ b.rows)
    cols := colUnion a.cols b.cols
    entry := fun d c =>
      if (d ∈ a.rows ∧ c ∈ a.cols) ∧ (d ∈ b.rows ∧ c ∈ b.cols) then
        match a.entry d c, b.entry d c with
        | some x, some y => some (x * y)
        | _, _ => none
      else none }

/-- Elementwise difference of two frames with pandas alignment. -/
def DF.subAlign (a b : DF) : DF :=
  { rows := sortDedup (a.rows ++ b.rows)
    cols := colUnion a.cols b.cols
    entry := fun d c =>
      if (d ∈ a.rows ∧ c ∈ a.cols) ∧ (d ∈ b.rows ∧ c ∈ b.cols) then
        match a.entry d c, b.entry d c with
        | some x, some y => some (x - y)
        | _, _ => none
      else none }

/-- Elementwise quotient of two frames with pandas alignment.  A zero
denominator yields a float infinity, conflated here with `none`. -/
def DF.divAlign (a b : DF) : DF :=
  { rows := sortDedup (a.rows ++ b.rows)
    cols := colUnion a.cols b.cols
    entry := fun d c =>
      if (d ∈ a.rows ∧ c ∈ a.cols) ∧ (d ∈ b.rows ∧ c ∈ b.cols) then
        match a.entry d c, b.entry d c with
        | some x, some y => if y = 0 then none else some (x / y)
        | _, _ => none
      else none }

/-- Source `series.cumprod()` with the pandas default `skipna=True`: a missing entry
stays missing, and present entries receive the running product of the
present entries up to and including their own position. -/
def cumprodVal (f : Nat → Option ℚ) : ℚ → List Nat → Nat → Option ℚ
  | _, [], _ => none
  | acc, r :: rs, d =>
    match f r with
    | some v => if r = d then some (acc * v) else cumprodVal f (acc * v) rs d
    | none => if r = d then none else cumprodVal f acc rs d

/-- Source `df[c] = g`: overwrite one existing column, keeping its position. -/
def DF.setCol (df : DF) (c : String) (g : Nat → Option ℚ) : DF :=
  { df with entry := fun d c1 => if c1 = c then g d else df.entry d c1 }

/-- A raw per-ticker table as returned by the data source: a date index and
the fields (candidate columns) it carries.  An individual value may itself
be missing. -/
structure RawTable where
  idx : List Nat
  fields : List String
  val : String → Nat → Option ℚ

/-- Source `select_first_valid_column(df, columns)` of the source: the first field
of the preference list present in the table, as an (index, values) series;
`none` when no candidate column exists (python `None`). -/
def selectFirst (t : RawTable) : List String → Option (List Nat × (Nat → Option ℚ))
  | [] => none
  | c :: cs => if c ∈ t.fields then some (t.idx, t.val c) else selectFirst t cs

/-- Source `pd.DataFrame.from_dict(dict(zip(keys, series)))`: columns are the
(first-occurrence deduplicated) keys, the index is the sorted union of the
indexes of the series actually present, and a `None` series broadcasts to an
all-missing column. -/
def fromDict (keys : List String) (getSeries : String → Option (List Nat × (Nat → Option ℚ))) : DF :=
  let ks := firstDedup keys
  { rows := sortDedup (ks.foldr (fun k acc =>
      match getSeries k with
      | some s => s.1 ++ acc
      | none => acc) [])
    cols := ks
    entry := fun d c =>
      match getSeries c with
      | some s => if d ∈ s.1 then s.2 d else none
      | none => none }

/-- The tickers of the universe for which the data source returned a table:
`keys = [el for el in universe if el not in (set(universe) - set(data.keys()))]`,
deduplicated as the download dictionary deduplicates them. -/
def keysOf (u : List String) (src : String → Option RawTable) : List String :=
  firstDedup (u.filter (fun k => (src k).isSome))

/-- The download dictionary `{ticker: fetched}` built by the download loop
(tickers whose fetch returned `None` are skipped). -/
def dataOf (u : List String) (src : String → Option RawTable) : List (String × RawTable) :=
  (firstDedup u).filterMap (fun t => (src t).map (fun tab => (t, tab)))

/-- The raw `prices` frame: per ticker, the first of
`"Adj. Close", "Close", "Value"`. -/
def pricesRaw (u : List String) (src : String → Option RawTable) : DF :=
  fromDict (keysOf u src)
    (fun k => (src k).bind (fun t => selectFirst t ["Adj. Close", "Close", "Value"]))

/-- The raw `open_price` frame (field `"Open"`). -/
def openRaw (u : List String) (src : String → Option RawTable) : DF :=
  fromDict (keysOf u src) (fun k => (src k).bind (fun t => selectFirst t ["Open"]))

/-- The raw `close_price` frame (field `"Close"`). -/
def closeRaw (u : List String) (src : String → Option RawTable) : DF :=
  fromDict (keysOf u src) (fun k => (src k).bind (fun t => selectFirst t ["Close"]))

/-- Source `np.log` on an optional float: missing stays missing, and a non-positive
argument produces a non-finite float, conflated here with missing. -/
def vlog (log : ℚ → ℚ) : Option ℚ → Option ℚ
  | none => none
  | some q => if q ≤ 0 then none else some (log q)

/-- Source `sigmas = np.abs(np.log(open_price.astype(float)) - np.log(close_price.astype(float)))`. -/
def sigmasRaw (log : ℚ → ℚ) (u : List String) (src : String → Option RawTable) : DF :=
  DF.mapEntries (Option.map (fun q => |q|))
    (DF.subAlign (DF.mapEntries (vlog log) (openRaw u src))
      (DF.mapEntries (vlog log) (closeRaw u src)))

/-- The raw `volumes` frame: per ticker, the first of
`"Adj. Volume", "Volume"`. -/
def volumesRaw (u : List String) (src : String → Option RawTable) : DF :=
  fromDict (keysOf u src)
    (fun k => (src k).bind (fun t => selectFirst t ["Adj. Volume", "Volume"]))

/-- Source `prices[rf] = 10000 * (1 + prices[rf] / (100 * 250)).cumprod()`.
Reading a missing column raises `KeyError`, modelled by `none`. -/
def fixRiskFree (rf : String) (df : DF) : Option DF :=
  if rf ∈ df.cols then
    some (df.setCol rf (fun d =>
      (cumprodVal (fun r => (df.entry r rf).map (fun p => 1 + p / (100 * 250))) 1 df.rows d).map
        (fun x => 10000 * x)))
  else none

/-- The triple of matrices the quality filters act on together. -/
structure Frames where
  prices : DF
  sigmas : DF
  volumes : DF

/-- Source `bad_assets = prices.columns[prices.isnull().sum() > len(prices) * 0.02]`. -/
def badAssetCols (df : DF) : List String :=
  df.cols.filter (fun c => decide ((colNulls df c : ℚ) > (df.rows.length : ℚ) * 0.02))

/-- Pass 1 of the quality filter: drop the assets with too many missing
prices from `prices`, `sigmas` and `volumes`. -/
def filterBadAssets (fr : Frames) : Frames :=
  let bad := badAssetCols fr.prices
  ⟨fr.prices.dropColsIn bad, fr.sigmas.dropColsIn bad, fr.volumes.dropColsIn bad⟩

/-- Source `df.index[df.isnull().sum(1) > nassets * .9]`. -/
def badDayRows (df : DF) (nassets : Nat) : List Nat :=
  df.rows.filter (fun d => decide ((rowNulls df d : ℚ) > (nassets : ℚ) * 0.9))

/-- The sorted, deduplicated union of the days on which more than 90% of
the (recomputed) asset count `nassets = prices.shape[1]` is missing in
`sigmas`, `prices` or `volumes`. -/
def badDaysOf (fr : Frames) : List Nat :=
  sortDedup (badDayRows fr.sigmas fr.prices.cols.length
    ++ badDayRows fr.prices fr.prices.cols.length
    ++ badDayRows fr.volumes fr.prices.cols.length)

/-- Pass 2 of the quality filter: remove the bad days from all three
matrices. -/
def filterBadDays (fr : Frames) : Frames :=
  ⟨fr.prices.dropRowsIn (badDaysOf fr), fr.sigmas.dropRowsIn (badDaysOf fr),
   fr.volumes.dropRowsIn (badDaysOf fr)⟩

/-- Passes 3 and 4: forward-fill the remaining gaps and unconditionally drop
the first remaining row of each matrix. -/
def gapFillFrames (fr : Frames) : Frames :=
  ⟨fr.prices.ffill.dropFirstRow, fr.sigmas.ffill.dropFirstRow, fr.volumes.ffill.dropFirstRow⟩

/-- The quality-filter/aligner chain applied to the extracted frames, in
source order: bad assets, bad days, gap fill with lead-row drop. -/
def coreFrames (fr : Frames) : Frames :=
  gapFillFrames (filterBadDays (filterBadAssets fr))

/-- Source `returns = (prices.diff() / prices.shift(1)).fillna(method='ffill').iloc[1:]`. -/
def returnsStage (p : DF) : DF :=
  ((p.diffR.divAlign p.shiftR).ffill).dropFirstRow

/-- Source `bad_assets = returns.columns[((-.5 > returns).sum() > 0) | ((returns > 2.).sum() > 0)]`:
assets with at least one dubious daily return. -/
def dubiousCols (r : DF) : List String :=
  r.cols.filter (fun c => r.rows.any (fun d =>
    match r.entry d c with
    | some v => decide (-0.5 > v) || decide (v > 2.0)
    | none => false))

/-- The four matrices stored into `realized` by `_fetch_return_data`. -/
structure Realized where
  data : List (String × RawTable)
  prices : DF
  returns : DF
  sigmas : DF
  volumes : DF

/-- The tail of `_fetch_return_data` after the gap fill: dollar volumes,
return computation, dubious-return filter, and the final positional drop of
the last column (`iloc[:, :-1]`) of `prices`, `sigmas`, `volumes`. -/
def computeOutputs (data : List (String × RawTable)) (fr : Frames) : Realized :=
  let volumes := fr.volumes.mulAlign fr.prices
  let returns := returnsStage fr.prices
  let bad := dubiousCols returns
  { data := data
    prices := (fr.prices.dropColsIn bad).dropLastCol
    returns := returns.dropColsIn bad
    sigmas := (fr.sigmas.dropColsIn bad).dropLastCol
    volumes := (volumes.dropColsIn bad).dropLastCol }

/-- Source `Model._fetch_return_data`: download, extract, fix the risk-free column,
filter, align, and assemble `realized`.  `none` models the `KeyError`
raised when the risk-free symbol has no price column. -/
def fetchReturnData (log : ℚ → ℚ) (u : List String) (rf : String)
    (src : String → Option RawTable) : Option Realized :=
  match fixRiskFree rf (pricesRaw u src) with
  | none => none
  | some p =>
    some (computeOutputs (dataOf u src)
      (coreFrames ⟨p, sigmasRaw log u src, volumesRaw u src⟩))

/-- The `model` sub-config (`cfg['model']`), kept by `load()` across a
snapshot restore. -/
structure ModelCfg where
  data_dir : String
  start_date : String
  end_date : String
deriving DecidableEq

/-- The `universe` sub-config: the optional `list`, `path` (already resolved
to the ticker column read from the referenced csv) and `risk_free_symbol`
entries of the dict. -/
structure UniverseCfg where
  list : Option (List String)
  pathTickers : Option (List String)
  risk_free_symbol : Option String

/-- The parsed `alpha` config dict handed to `Model.__init__`. -/
structure AlphaCfg where
  name : String
  model : ModelCfg
  «universe» : Option UniverseCfg

/-- The dict of `realized`, as filled by `_fetch_return_data` (five data
keys, collapsed into `ret`) and `_fetch_factor_data` (`ff`).  Both are
`none` right after construction (`self.realized = {}`). -/
structure RealizedState where
  ret : Option Realized
  ff : Option DF

/-- The instance attributes of a `Model` object that the source ever reads
or writes: `name`, `cfg`, `data_dir`, `universe` (`none` when
`Model.__init__` never executed an assignment to it), `risk_free_symbol`
and `realized`. -/
structure MState where
  name : String
  cfg : ModelCfg
  data_dir : String
  «universe» : Option (List String)
  risk_free_symbol : String
  realized : RealizedState

/-- Source `Model.__init__` on an already-parsed config.  A missing `universe` key
or a missing `risk_free_symbol` key raises `KeyError`; but when the
universe dict has neither a `list` nor a `path` key, no branch of the
`if`/`elif` runs, `self.universe` is simply never assigned, and
construction succeeds. -/
def modelInit (cfg : AlphaCfg) : Except String MState :=
  match cfg.«universe» with
  | none => Except.error "KeyError: universe"
  | some u =>
    let univ : Option (List String) :=
      match u.list with
      | some l => some l
      | none => u.pathTickers
    match u.risk_free_symbol with
    | none => Except.error "KeyError: risk_free_symbol"
    | some rfs =>
      Except.ok { name := cfg.name, cfg := cfg.model, data_dir := cfg.model.data_dir,
                  «universe» := univ, risk_free_symbol := rfs, realized := ⟨none, none⟩ }

/-- The persisted-snapshot store: the file system as a map from filenames to
pickled `__dict__` snapshots. -/
def FS : Type := String → Option MState

/-- Source `self.filename`: `data_dir + 'model_' + name + '_' + <today> + '.mdl'`. -/
def filenameOf (today : String) (st : MState) : String :=
  st.data_dir ++ "model_" ++ st.name ++ "_" ++ today ++ ".mdl"

/-- Source `Model.save()`: pickle the whole `__dict__` under today's filename,
unconditionally overwriting a same-day artifact. -/
def saveFn (today : String) (fs : FS) (st : MState) : FS :=
  fun n => if n = filenameOf today st then some st else fs n

/-- Source `Model.load()`: when today's file exists, replace the whole `__dict__`
with the unpickled snapshot and then restore the pre-call `cfg`; `none`
models the `return False` of a missing file. -/
def loadFn (today : String) (fs : FS) (st : MState) : Option MState :=
  (fs (filenameOf today st)).map (fun snap => { snap with cfg := st.cfg })

/-- Observable collaborator calls made during `_fetch_data`. -/
inductive Ev
  | fetchRet
  | fetchFac
  | save
deriving DecidableEq

/-- Source `Model._fetch_data(force)`: try the date-stamped cache first (unless
forced), otherwise run `_fetch_return_data` then `_fetch_factor_data` and
persist.  The factor fetch outcome is the external collaborator's and is
passed in as `fac`; an exception anywhere propagates (`Except.error`) and
skips the save.  The second component records which collaborators ran. -/
def fetchData (log : ℚ → ℚ) (today : String) (force : Bool) (fs : FS) (st : MState)
    (src : String → Option RawTable) (fac : Except String DF) :
    Except String (FS × MState) × List Ev :=
  match (if force then none else loadFn today fs st) with
  | some st1 => (Except.ok (fs, st1), [])
  | none =>
    match st.«universe» with
    | none => (Except.error "AttributeError: universe", [Ev.fetchRet])
    | some u =>
      match fetchReturnData log u st.risk_free_symbol src with
      | none => (Except.error "KeyError: risk_free_symbol", [Ev.fetchRet])
      | some r =>
        match fac with
        | Except.error e => (Except.error e, [Ev.fetchRet, Ev.fetchFac])
        | Except.ok ff =>
          let st2 : MState := { st with realized := ⟨some r, some ff⟩ }
          (Except.ok (saveFn today fs st2, st2), [Ev.fetchRet, Ev.fetchFac, Ev.save])

/-- Position of a date in an index. -/
def posOf : List Nat → Nat → Option Nat
  | [], _ => none
  | a :: l, d => if a = d then some 0 else (posOf l d).map (· + 1)

/-- Build a concrete raw table from an index and per-field value lists. -/
def tabOf (idx : List Nat) (assoc : List (String × List (Option ℚ))) : RawTable :=
  { idx := idx
    fields := assoc.map (·.1)
    val := fun f d =>
      match assoc.find? (fun p => p.1 == f) with
      | some p =>
        match posOf idx d with
        | some i => (p.2.get? i).getD none
        | none => none
      | none => none }

instance : Inhabited Realized := ⟨⟨[], default, default, default, default⟩⟩

/-- Stand-in for `np.log` in concrete evaluations; the pipeline results do
not depend on it. -/
def lg0 : ℚ → ℚ := fun q => q

/-- A dense two-ticker data source: `AAA` with close/open/volume data and
`USDOLLAR` with a `Value` series of zero rates. -/
def srcG : String → Option RawTable := fun t =>
  if t = "AAA" then
    some (tabOf [0, 1, 2] [("Close", [some 100, some 100, some 100]),
                           ("Open", [some 100, some 100, some 100]),
                           ("Volume", [some 10, some 10, some 10])])
  else if t = "USDOLLAR" then
    some (tabOf [0, 1, 2] [("Value", [some 0, some 0, some 0])])
  else none

/-- Universe with the risk-free symbol in last position (the configuration
the source implicitly assumes). -/
def uG : List String := ["AAA", "USDOLLAR"]

/-- The realized dataset of the dense scenario. -/
def resG : Realized := (fetchReturnData lg0 uG "USDOLLAR" srcG).getD default


/-- Universe with the risk-free symbol in first (not last) position. -/
def uC1 : List String := ["USDOLLAR", "AAA"]

/-- The realized dataset when the risk-free symbol is not the last universe
entry. -/
def resC1 : Realized := (fetchReturnData lg0 uC1 "USDOLLAR" srcG).getD default

/-- Data source over four days whose `USDOLLAR` rate of 60000 basis points
makes the synthetic risk-free index grow by 240% a day. -/
def srcCex : String → Option RawTable := fun t =>
  if t = "AAA" then
    some (tabOf [0, 1, 2, 3] [("Close", [some 100, some 100, some 100, some 100]),
                              ("Open", [some 100, some 100, some 100, some 100]),
                              ("Volume", [some 10, some 10, some 10, some 10])])
  else if t = "USDOLLAR" then
    some (tabOf [0, 1, 2, 3] [("Value", [some 60000, some 60000, some 60000, some 60000])])
  else none

/-- The realized dataset of the dubious-risk-free scenario. -/
def resCex : Realized := (fetchReturnData lg0 uG "USDOLLAR" srcCex).getD default

/-- Data source where ticker `AAA` carries no volume field at all, so its
volume column is missing everywhere. -/
def src3 : String → Option RawTable := fun t =>
  if t = "AAA" then
    some (tabOf [0, 1, 2] [("Close", [some 100, some 100, some 100]),
                           ("Open", [some 100, some 100, some 100])])
  else if t = "USDOLLAR" then
    some (tabOf [0, 1, 2] [("Value", [some 0, some 0, some 0]),
                           ("Volume", [some 10, some 10, some 10])])
  else none

/-- The prices frame of the no-volume scenario after the risk-free fix. -/
def pfix3 : DF := (fixRiskFree "USDOLLAR" (pricesRaw uG src3)).getD default

/-- The three matrices of the no-volume scenario right after gap filling and
the lead-row drop. -/
def st3cex : Frames := coreFrames ⟨pfix3, sigmasRaw lg0 uG src3, volumesRaw uG src3⟩

/-! ### Basic facts about the index utilities -/

theorem insertSorted_mem (x y : Nat) (l : List Nat) :
    y ∈ insertSorted x l ↔ y = x ∨ y ∈ l := by
  induction l with
  | nil => simp [insertSorted]
  | cons a l ih =>
    by_cases h1 : x < a
    · simp [insertSorted, h1]
    · by_cases h2 : x = a
      · subst h2
        simp [insertSorted, h1]
      · simp only [insertSorted, if_neg h1, if_neg h2, List.mem_cons, ih]
        tauto

theorem insertSorted_pairwise {x : Nat} {l : List Nat}
    (h : List.Pairwise (· < ·) l) : List.Pairwise (· < ·) (insertSorted x l) := by
  induction l with
  | nil => simp [insertSorted]
  | cons a l ih =>
    rw [List.pairwise_cons] at h
    by_cases h1 : x < a
    · rw [insertSorted, if_pos h1, List.pairwise_cons]
      refine ⟨?_, List.pairwise_cons.2 h⟩
      intro y hy
      rcases List.mem_cons.1 hy with rfl | hy
      · exact h1
      · exact lt_trans h1 (h.1 y hy)
    · by_cases h2 : x = a
      · subst h2
        rw [insertSorted, if_neg h1, if_pos rfl, List.pairwise_cons]
        exact h
      · rw [insertSorted, if_neg h1, if_neg h2, List.pairwise_cons]
        refine ⟨?_, ih h.2⟩
        intro y hy
        rcases (insertSorted_mem x y l).1 hy with rfl | hy
        · omega
        · exact h.1 y hy

theorem sortDedup_pairwise (l : List Nat) : List.Pairwise (· < ·) (sortDedup l) := by
  induction l with
  | nil => simp [sortDedup]
  | cons a l ih => exact insertSorted_pairwise ih

theorem insertSorted_of_mem {x : Nat} {l : List Nat}
    (hs : List.Pairwise (· < ·) l) (hm : x ∈ l) : insertSorted x l = l := by
  induction l with
  | nil => cases hm
  | cons a l ih =>
    rw [List.pairwise_cons] at hs
    rcases List.mem_cons.1 hm with rfl | h
    · simp [insertSorted]
    · have hax : a < x := hs.1 x h
      have h1 : ¬ x < a := by omega
      have h2 : ¬ x = a := by omega
      rw [insertSorted, if_neg h1, if_neg h2, ih hs.2 h]

theorem foldr_insertSorted_self {r : List Nat} (hs : List.Pairwise (· < ·) r) :
    ∀ l : List Nat, (∀ x ∈ l, x ∈ r) → List.foldr insertSorted r l = r := by
  intro l
  induction l with
  | nil => intro _; rfl
  | cons a l ih =>
    intro h
    rw [List.foldr_cons, ih (fun x hx => h x (List.mem_cons_of_mem a hx))]
    exact insertSorted_of_mem hs (h a (List.mem_cons_self a l))

theorem insertSorted_lt_head {x : Nat} {l : List Nat}
    (h : ∀ y ∈ l, x < y) : insertSorted x l = x :: l := by
  cases l with
  | nil => rfl
  | cons b m => rw [insertSorted, if_pos (h b (List.mem_cons_self b m))]

theorem sortDedup_eq_self {l : List Nat} (hs : List.Pairwise (· < ·) l) :
    sortDedup l = l := by
  induction l with
  | nil => rfl
  | cons a l ih =>
    rw [List.pairwise_cons] at hs
    show insertSorted a (sortDedup l) = a :: l
    rw [ih hs.2]
    exact insertSorted_lt_head hs.1

theorem sortDedup_append_self {r : List Nat} (hs : List.Pairwise (· < ·) r) :
    sortDedup (r ++ r) = r := by
  show List.foldr insertSorted [] (r ++ r) = r
  rw [List.foldr_append]
  have h2 : List.foldr insertSorted [] r = r := sortDedup_eq_self hs
  rw [h2]
  exact foldr_insertSorted_self hs r (fun x hx => hx)

theorem colUnion_self (c : List String) : colUnion c c = c := by
  have h : c.filter (fun x => decide (x ∉ c)) = [] := by
    rw [List.filter_eq_nil_iff]
    intro a ha
    simp [ha]
  rw [colUnion, h, List.append_nil]

/-! ### Shape facts about the frame operations -/

theorem dropColsIn_rows (df : DF) (bad : List String) :
    (df.dropColsIn bad).rows = df.rows := rfl

theorem dropColsIn_cols (df : DF) (bad : List String) :
    (df.dropColsIn bad).cols = df.cols.filter (fun c => decide (c ∉ bad)) := rfl

theorem dropColsIn_entry (df : DF) (bad : List String) :
    (df.dropColsIn bad).entry = df.entry := rfl

theorem dropRowsIn_rows (df : DF) (bad : List Nat) :
    (df.dropRowsIn bad).rows = df.rows.filter (fun d => decide (d ∉ bad)) := rfl

theorem dropRowsIn_cols (df : DF) (bad : List Nat) :
    (df.dropRowsIn bad).cols = df.cols := rfl

theorem dropFirstRow_rows (df : DF) : df.dropFirstRow.rows = df.rows.tail := rfl

theorem dropFirstRow_cols (df : DF) : df.dropFirstRow.cols = df.cols := rfl

theorem dropLastCol_rows (df : DF) : df.dropLastCol.rows = df.rows := rfl

theorem dropLastCol_cols (df : DF) : df.dropLastCol.cols = df.cols.dropLast := rfl

theorem ffill_rows (df : DF) : df.ffill.rows = df.rows := rfl

theorem ffill_cols (df : DF) : df.ffill.cols = df.cols := rfl

theorem diffR_rows (df : DF) : df.diffR.rows = df.rows := rfl

theorem diffR_cols (df : DF) : df.diffR.cols = df.cols := rfl

theorem shiftR_rows (df : DF) : df.shiftR.rows = df.rows := rfl

theorem shiftR_cols (df : DF) : df.shiftR.cols = df.cols := rfl

theorem mulAlign_rows (a b : DF) : (a.mulAlign b).rows = sortDedup (a.rows ++ b.rows) := rfl

theorem mulAlign_cols (a b : DF) : (a.mulAlign b).cols = colUnion a.cols b.cols := rfl

theorem divAlign_rows (a b : DF) : (a.divAlign b).rows = sortDedup (a.rows ++ b.rows) := rfl

theorem divAlign_cols (a b : DF) : (a.divAlign b).cols = colUnion a.cols b.cols := rfl

theorem subAlign_rows (a b : DF) : (a.subAlign b).rows = sortDedup (a.rows ++ b.rows) := rfl

theorem subAlign_cols (a b : DF) : (a.subAlign b).cols = colUnion a.cols b.cols := rfl

theorem mapEntries_rows (f : Option ℚ → Option ℚ) (df : DF) :
    (DF.mapEntries f df).rows = df.rows := rfl

theorem mapEntries_cols (f : Option ℚ → Option ℚ) (df : DF) :
    (DF.mapEntries f df).cols = df.cols := rfl

theorem setCol_rows (df : DF) (c : String) (g : Nat → Option ℚ) :
    (df.setCol c g).rows = df.rows := rfl

theorem setCol_cols (df : DF) (c : String) (g : Nat → Option ℚ) :
    (df.setCol c g).cols = df.cols := rfl

/-- Unfolding a successful risk-free fix: the frame shape is unchanged and
the risk-free column was present. -/
theorem fixRiskFree_eq_some {rf : String} {df d1 : DF}
    (h : fixRiskFree rf df = some d1) :
    d1.rows = df.rows ∧ d1.cols = df.cols ∧ rf ∈ df.cols := by
  rw [fixRiskFree] at h
  split at h
  · exact ⟨(Option.some.injEq _ _ ▸ h.symm) ▸ rfl, (Option.some.injEq _ _ ▸ h.symm) ▸ rfl, by assumption⟩
  · cases h

/-- Fraction of missing values of one column, over the frame's row count. -/
def missingFrac (df : DF) (c : String) : ℚ :=
  (colNulls df c : ℚ) / (df.rows.length : ℚ)

/-! ### Claim theorems -/

unseal Rat.add Rat.mul Rat.sub Rat.inv Rat.ofScientific in
/-- C1: the source removes the risk-free instrument from `prices`, `sigmas`
and `volumes` positionally (`iloc[:, :-1]`, "remove USDOLLAR except from
returns").  When the risk-free symbol is not the last universe entry this
removes the wrong column: with universe `["USDOLLAR", "AAA"]` and dense
data, the final prices matrix consists of exactly the risk-free column,
contradicting the claimed absence of the risk-free identifier from
`price.columns`. -/
theorem c1_riskfree_exclusion_code_eval :
    resC1.prices.cols = ["USDOLLAR"] ∧ resC1.sigmas.cols = ["USDOLLAR"] ∧
    resC1.volumes.cols = ["USDOLLAR"] ∧ resC1.returns.cols = ["USDOLLAR", "AAA"] := by
  decide

unseal Rat.add Rat.mul Rat.sub Rat.inv Rat.ofScientific in
/-- C2 counterexample: with dense four-day data and a `USDOLLAR` rate of
60000 basis points, the final `prices`/`sigmas`/`volumes` matrices have row
set `{1, 2, 3}` while `returns` has row set `{2, 3}` (one further leading
row dropped), and the risk-free column is absent from `returns` (its own
synthetic return of 2.4 makes it a dubious asset).  Both parts contradict
the claim at this input. -/
theorem c2_alignment_counterexample :
    resCex.prices.rows = [1, 2, 3] ∧ resCex.sigmas.rows = [1, 2, 3] ∧
    resCex.volumes.rows = [1, 2, 3] ∧ resCex.returns.rows = [2, 3] ∧
    resCex.returns.cols = ["AAA"] := by
  decide

unseal Rat.add Rat.mul Rat.sub Rat.inv Rat.ofScientific in
/-- C3 counterexample: ticker `AAA` has no volume field, so its volume
column is missing on every date; forward filling cannot create values, and
after the gap-fill step and the lead-row drop the volumes matrix still has
a missing value at date 2 of column `AAA`, contradicting the claim. -/
theorem c3_no_missing_counterexample :
    2 ∈ st3cex.volumes.rows ∧ "AAA" ∈ st3cex.volumes.cols ∧
    st3cex.volumes.entry 2 "AAA" = none := by
  decide

/-- A universe dict with neither a `list` nor a `path` key (but with a
`risk_free_symbol` key). -/
def cfgBad : AlphaCfg :=
  { name := "m", model := ⟨"/tmp/", "2017-01-01", "2017-12-31"⟩,
    «universe» := some ⟨none, none, some "USDOLLAR"⟩ }

/-- C7: constructing a `Model` from a universe dict containing neither a
`list` nor a `path` key does not fail: neither branch of the `if`/`elif`
runs, no `ValueError` is raised, and construction completes with the
`universe` attribute never assigned (`none`), contradicting the claim that
such a configuration is a fatal construction-time error. -/
theorem c7_universe_validation_code_eval :
    modelInit cfgBad =
      Except.ok { name := "m", cfg := ⟨"/tmp/", "2017-01-01", "2017-12-31"⟩,
                  data_dir := "/tmp/", «universe» := none,
                  risk_free_symbol := "USDOLLAR", realized := ⟨none, none⟩ } := by
  rfl

/-- C10: whenever a persisted snapshot exists for today's filename, `load()`
succeeds and the resulting state is exactly the snapshot with every
attribute taken from it except `cfg`, which keeps its pre-call value. -/
theorem c10_load_preserves_cfg (today : String) (fs : FS) (st snap : MState)
    (h : fs (filenameOf today st) = some snap) :
    loadFn today fs st = some { snap with cfg := st.cfg } := by
  rw [loadFn, h]
  rfl

/-- A snapshot state differing from the live state in every attribute. -/
def snapW : MState :=
  { name := "other", cfg := ⟨"/d/", "2016-01-01", "2016-12-31"⟩, data_dir := "/d/",
    «universe» := some ["X"], risk_free_symbol := "X", realized := ⟨none, none⟩ }

/-- A live model state. -/
def stW : MState :=
  { name := "m", cfg := ⟨"/tmp/", "2017-01-01", "2017-12-31"⟩, data_dir := "/tmp/",
    «universe» := some ["AAA", "USDOLLAR"], risk_free_symbol := "USDOLLAR",
    realized := ⟨none, none⟩ }

/-- A file system holding the snapshot under today's filename for `stW`. -/
def fsW : FS := fun n => if n = filenameOf "20260101" stW then some snapW else none

/-- Witness for C10 at a concrete store, state and snapshot. -/
theorem c10_load_preserves_cfg_witness :
    loadFn "20260101" fsW stW = some { snapW with cfg := stW.cfg } :=
  c10_load_preserves_cfg "20260101" fsW stW snapW (by rfl)

/-- C8: on a cache-miss refresh where the per-instrument return fetch has
succeeded, a factor-fetch exception propagates out of `_fetch_data` as-is,
and `save` is never invoked (no dataset is persisted). -/
theorem c8_factor_failure_no_save (log : ℚ → ℚ) (today : String) (fs : FS) (st : MState)
    (src : String → Option RawTable) (u : List String) (r : Realized) (e : String)
    (hmiss : loadFn today fs st = none)
    (huniv : st.«universe» = some u)
    (hret : fetchReturnData log u st.risk_free_symbol src = some r) :
    fetchData log today false fs st src (Except.error e) =
      (Except.error e, [Ev.fetchRet, Ev.fetchFac]) ∧
    Ev.save ∉ (fetchData log today false fs st src (Except.error e)).2 := by
  have h : fetchData log today false fs st src (Except.error e) =
      (Except.error e, [Ev.fetchRet, Ev.fetchFac]) := by
    simp only [fetchData, hmiss, huniv, hret, Bool.false_eq_true, if_false]
  refine ⟨h, ?_⟩
  rw [h]
  simp

/-- Witness for C8: the dense scenario with an erroring factor fetch. -/
theorem c8_factor_failure_no_save_witness :
    fetchData lg0 "20260101" false (fun _ => none) stW srcG (Except.error "HTTPError") =
      (Except.error "HTTPError", [Ev.fetchRet, Ev.fetchFac]) :=
  (c8_factor_failure_no_save lg0 "20260101" (fun _ => none) stW srcG
    ["AAA", "USDOLLAR"] resG "HTTPError" (by rfl) (by rfl) (by rfl)).1

/-- Reading back a state just saved under the same date yields that state:
`load` re-installs the snapshot and restores the unchanged `cfg`. -/
theorem loadFn_saveFn (today : String) (fs : FS) (st : MState) :
    loadFn today (saveFn today fs st) st = some st := by
  rw [loadFn, saveFn]
  simp

/-- C9: if an unforced `_fetch_data` call that found no cache completes
successfully, a second unforced call on the same calendar date (whatever
its data source and factor fetch would return) finds the persisted
snapshot, performs no return-data or factor fetch, and leaves the model in
the same state — in particular with the same `realized` dataset. -/
theorem c9_cache_idempotence (log log2 : ℚ → ℚ) (today : String) (fs0 fs1 : FS)
    (st0 st1 : MState) (src src2 : String → Option RawTable)
    (fac fac2 : Except String DF) (ev1 : List Ev)
    (hmiss : loadFn today fs0 st0 = none)
    (h1 : fetchData log today false fs0 st0 src fac = (Except.ok (fs1, st1), ev1)) :
    fetchData log2 today false fs1 st1 src2 fac2 = (Except.ok (fs1, st1), []) := by
  simp only [fetchData, hmiss, Bool.false_eq_true, if_false] at h1
  split at h1
  · simp at h1
  · split at h1
    · simp at h1
    · split at h1
      · simp at h1
      · simp only [Except.ok.injEq, Prod.mk.injEq] at h1
        obtain ⟨⟨hfs, hst⟩, -⟩ := h1
        subst hfs
        subst hst
        simp only [fetchData, loadFn_saveFn, Bool.false_eq_true, if_false]

/-- A first concrete unforced refresh on an empty store: the dense scenario
with a successful (empty-frame) factor fetch. -/
def run1 : Except String (FS × MState) × List Ev :=
  fetchData lg0 "20260101" false (fun _ => none) stW srcG (Except.ok default)

/-- The store after the first concrete refresh. -/
def fs1W : FS :=
  match run1.1 with
  | Except.ok p => p.1
  | Except.error _ => fun _ => none

/-- The model state after the first concrete refresh. -/
def st1W : MState :=
  match run1.1 with
  | Except.ok p => p.2
  | Except.error _ => stW

/-- Witness for C9: re-running `_fetch_data` on the state and store produced
by the first concrete refresh loads the snapshot and changes nothing. -/
theorem c9_cache_idempotence_witness :
    fetchData lg0 "20260101" false fs1W st1W srcG (Except.ok default) =
      (Except.ok (fs1W, st1W), []) :=
  c9_cache_idempotence lg0 lg0 "20260101" (fun _ => none) fs1W stW st1W srcG srcG
    (Except.ok default) (Except.ok default) run1.2 (by rfl) (by rfl)

/-- Evaluating a skipna cumulative product along a duplicate-free index at
position `t`, when every entry up to `t` is present: the running product of
the first `t + 1` values times the accumulator. -/
theorem cumprodVal_get (f : Nat → Option ℚ) :
    ∀ (rows : List Nat) (g : Nat → ℚ) (acc : ℚ), rows.Nodup →
      (∀ i (hi : i < rows.length), f (rows.get ⟨i, hi⟩) = some (g i)) →
      ∀ t (ht : t < rows.length),
        cumprodVal f acc rows (rows.get ⟨t, ht⟩) =
          some (acc * ∏ s in Finset.range (t + 1), g s) := by
  intro rows
  induction rows with
  | nil =>
    intro g acc _ _ t ht
    cases ht
  | cons a rs ih =>
    intro g acc hnd hf t ht
    have hfa : f a = some (g 0) := hf 0 (Nat.succ_pos _)
    cases t with
    | zero =>
      have h0 : (a :: rs).get ⟨0, ht⟩ = a := rfl
      rw [h0]
      simp only [cumprodVal, hfa, if_true, eq_self_iff_true, Nat.zero_add, Finset.range_one,
        Finset.prod_singleton]
    | succ t =>
      have ht1 : t < rs.length := Nat.lt_of_succ_lt_succ ht
      have hget : (a :: rs).get ⟨t + 1, ht⟩ = rs.get ⟨t, ht1⟩ := rfl
      have hmem : rs.get ⟨t, ht1⟩ ∈ rs := List.get_mem rs t ht1
      have hne : ¬ a = rs.get ⟨t, ht1⟩ := by
        intro he
        exact (List.nodup_cons.1 hnd).1 (he ▸ hmem)
      have hrec := ih (fun s => g (s + 1)) (acc * g 0) (List.nodup_cons.1 hnd).2
        (fun i hi => hf (i + 1) (Nat.succ_lt_succ hi)) t ht1
      rw [hget]
      simp only [cumprodVal, hfa, if_neg hne, hrec]
      refine congrArg some ?_
      conv_rhs => rw [Finset.prod_range_succ']
      ring

/-- Outer-join indexes are strictly sorted. -/
theorem fromDict_rows_pairwise (keys : List String)
    (getSeries : String → Option (List Nat × (Nat → Option ℚ))) :
    List.Pairwise (· < ·) (fromDict keys getSeries).rows :=
  sortDedup_pairwise _

/-- C6: in the pipeline, the risk-free column of the prices matrix is
overwritten — before any NaN-based filtering, which in `fetchReturnData`
only ever sees the fixed frame `pfix` — with the synthetic compounding
series: when the raw risk-free prices are `p 0, p 1, ...` down the index,
the value at the `t`-th date is
`10000 * ∏ s ≤ t, (1 + p s / 25000)`. -/
theorem c6_riskfree_compounding (u : List String) (rf : String)
    (src : String → Option RawTable) (pfix : DF) (p : Nat → ℚ)
    (hfix : fixRiskFree rf (pricesRaw u src) = some pfix)
    (hp : ∀ i (hi : i < (pricesRaw u src).rows.length),
      (pricesRaw u src).entry ((pricesRaw u src).rows.get ⟨i, hi⟩) rf = some (p i)) :
    ∀ t (ht : t < (pricesRaw u src).rows.length),
      pfix.entry ((pricesRaw u src).rows.get ⟨t, ht⟩) rf =
        some (10000 * ∏ s in Finset.range (t + 1), (1 + p s / (100 * 250))) := by
  intro t ht
  rw [fixRiskFree] at hfix
  split at hfix
  · injection hfix with hh
    subst hh
    have hnd : (pricesRaw u src).rows.Nodup :=
      (fromDict_rows_pairwise _ _).imp (fun h => Nat.ne_of_lt h)
    have hcp := cumprodVal_get
      (fun r => ((pricesRaw u src).entry r rf).map (fun q => 1 + q / (100 * 250)))
      (pricesRaw u src).rows (fun s => 1 + p s / (100 * 250)) 1 hnd
      (fun i hi => by
        show Option.map (fun q => 1 + q / (100 * 250))
            ((pricesRaw u src).entry ((pricesRaw u src).rows.get ⟨i, hi⟩) rf) =
          some (1 + p i / (100 * 250))
        rw [hp i hi]
        rfl) t ht
    simp only [DF.setCol, if_pos rfl, hcp]
    simp
  · cases hfix

/-- The fixed prices frame of the dubious-risk-free scenario. -/
def pfixCex : DF := (fixRiskFree "USDOLLAR" (pricesRaw uG srcCex)).getD default

unseal Rat.add Rat.mul Rat.sub Rat.inv Rat.ofScientific in
/-- Witness for C6: with a constant risk-free rate of 60000 on four days,
the fourth fixed price is `10000 * (1 + 60000/25000)^4`. -/
theorem c6_riskfree_compounding_witness :
    pfixCex.entry 3 "USDOLLAR" =
      some (10000 * ∏ _s in Finset.range 4, (1 + (60000 : ℚ) / (100 * 250))) :=
  c6_riskfree_compounding uG "USDOLLAR" srcCex pfixCex (fun _ => 60000)
    (by rfl) (by decide) 3 (by decide)

/-- The source's drop condition `count > len * 0.02` says exactly that the
missing fraction exceeds 2% (with the 0-row frame dropping nothing). -/
theorem badAsset_iff_frac (df : DF) (c : String) :
    ((colNulls df c : ℚ) > (df.rows.length : ℚ) * 0.02) ↔ missingFrac df c > 0.02 := by
  rw [missingFrac]
  rcases Nat.eq_zero_or_pos df.rows.length with h0 | hpos
  · have hc : colNulls df c = 0 := by
      rw [colNulls, List.length_eq_zero.1 h0]
      rfl
    rw [h0, hc]
    norm_num
  · have hq : (0 : ℚ) < (df.rows.length : ℚ) := by exact_mod_cast hpos
    rw [gt_iff_lt, gt_iff_lt, lt_div_iff₀ hq]
    constructor <;> intro h <;> linarith

/-- Membership in the bad-asset list characterized by the missing
fraction. -/
theorem mem_badAssetCols (df : DF) (c : String) :
    c ∈ badAssetCols df ↔ c ∈ df.cols ∧ missingFrac df c > 0.02 := by
  rw [badAssetCols, List.mem_filter, decide_eq_true_iff, badAsset_iff_frac]

/-- Final prices columns: the two column filters, then the positional drop
of the last column. -/
theorem computeOutputs_prices_cols (data : List (String × RawTable)) (fr : Frames) :
    (computeOutputs data fr).prices.cols =
      (fr.prices.cols.filter
        (fun c => decide (c ∉ dubiousCols (returnsStage fr.prices)))).dropLast := rfl

/-- Columns surviving the filter chain up to the gap fill. -/
theorem coreFrames_prices_cols (fr : Frames) :
    (coreFrames fr).prices.cols =
      fr.prices.cols.filter (fun c => decide (c ∉ badAssetCols fr.prices)) := rfl

unseal Rat.add Rat.mul Rat.sub Rat.inv Rat.ofScientific in
/-- C4: pass 1 drops exactly the instruments whose missing-price fraction,
measured on the extracted prices frame before any gap filling and over its
full row count, strictly exceeds 2%; the dropped instruments disappear from
`prices`, `sigmas` and `volumes` alike, and every instrument still present
in the final prices matrix has a missing fraction of at most 2%. -/
theorem c4_missing_threshold (log : ℚ → ℚ) (u : List String) (rf : String)
    (src : String → Option RawTable) (pfix : DF) (res : Realized)
    (hfix : fixRiskFree rf (pricesRaw u src) = some pfix)
    (hres : fetchReturnData log u rf src = some res) :
    (∀ c, c ∈ badAssetCols pfix ↔ c ∈ pfix.cols ∧ missingFrac pfix c > 0.02) ∧
    (∀ c, c ∈ badAssetCols pfix →
      c ∉ (filterBadAssets ⟨pfix, sigmasRaw log u src, volumesRaw u src⟩).prices.cols ∧
      c ∉ (filterBadAssets ⟨pfix, sigmasRaw log u src, volumesRaw u src⟩).sigmas.cols ∧
      c ∉ (filterBadAssets ⟨pfix, sigmasRaw log u src, volumesRaw u src⟩).volumes.cols) ∧
    (∀ c, c ∈ res.prices.cols → missingFrac pfix c ≤ 0.02) := by
  refine ⟨fun c => mem_badAssetCols pfix c, ?_, ?_⟩
  · intro c hc
    refine ⟨?_, ?_, ?_⟩ <;>
      · intro hmem
        rw [filterBadAssets] at hmem
        simp only [DF.dropColsIn, List.mem_filter, decide_eq_true_iff] at hmem
        exact hmem.2 hc
  · intro c hc
    simp only [fetchReturnData, hfix] at hres
    have hre : computeOutputs (dataOf u src)
        (coreFrames ⟨pfix, sigmasRaw log u src, volumesRaw u src⟩) = res :=
      Option.some.inj hres
    rw [← hre, computeOutputs_prices_cols, coreFrames_prices_cols] at hc
    have hc2 := (List.dropLast_sublist _).mem hc
    rw [List.mem_filter] at hc2
    rw [List.mem_filter] at hc2
    have hnot : c ∉ badAssetCols pfix := by
      have := hc2.1.2
      rwa [decide_eq_true_iff] at this
    rw [mem_badAssetCols] at hnot
    by_contra hgt
    exact hnot ⟨hc2.1.1, lt_of_not_ge hgt⟩

/-- The fixed prices frame of the dense scenario. -/
def pfixG : DF := (fixRiskFree "USDOLLAR" (pricesRaw uG srcG)).getD default

unseal Rat.add Rat.mul Rat.sub Rat.inv Rat.ofScientific in
/-- Witness for C4: in the dense scenario, the instrument `AAA` retained in
the final prices matrix has missing fraction at most 2%. -/
theorem c4_missing_threshold_witness : missingFrac pfixG "AAA" ≤ 0.02 :=
  (c4_missing_threshold lg0 uG "USDOLLAR" srcG pfixG resG (by rfl) (by rfl)).2.2
    "AAA" (by decide)

/-- Membership in the dubious-asset list: some present daily return lies
strictly below -0.5 or strictly above 2. -/
theorem mem_dubiousCols (r : DF) (c : String) :
    c ∈ dubiousCols r ↔ c ∈ r.cols ∧ ∃ d, d ∈ r.rows ∧ ∃ v : ℚ,
      r.entry d c = some v ∧ ((-0.5 : ℚ) > v ∨ v > 2.0) := by
  rw [dubiousCols, List.mem_filter, List.any_eq_true]
  refine and_congr_right (fun _ => ?_)
  constructor
  · rintro ⟨d, hd, hpred⟩
    refine ⟨d, hd, ?_⟩
    rcases he : r.entry d c with _ | v
    · rw [he] at hpred
      cases hpred
    · rw [he, Bool.or_eq_true, decide_eq_true_iff, decide_eq_true_iff] at hpred
      exact ⟨v, rfl, hpred⟩
  · rintro ⟨d, hd, v, he, hv⟩
    refine ⟨d, hd, ?_⟩
    rw [he, Bool.or_eq_true, decide_eq_true_iff, decide_eq_true_iff]
    exact hv

/-- Final returns matrix: the return stage with the dubious columns
dropped (and no positional column drop). -/
theorem computeOutputs_returns (data : List (String × RawTable)) (fr : Frames) :
    (computeOutputs data fr).returns =
      (returnsStage fr.prices).dropColsIn (dubiousCols (returnsStage fr.prices)) := rfl

/-- Final sigmas columns. -/
theorem computeOutputs_sigmas_cols (data : List (String × RawTable)) (fr : Frames) :
    (computeOutputs data fr).sigmas.cols =
      (fr.sigmas.cols.filter
        (fun c => decide (c ∉ dubiousCols (returnsStage fr.prices)))).dropLast := rfl

/-- Final volumes columns. -/
theorem computeOutputs_volumes_cols (data : List (String × RawTable)) (fr : Frames) :
    (computeOutputs data fr).volumes.cols =
      ((fr.volumes.mulAlign fr.prices).cols.filter
        (fun c => decide (c ∉ dubiousCols (returnsStage fr.prices)))).dropLast := rfl

unseal Rat.add Rat.mul Rat.sub Rat.inv Rat.ofScientific in
/-- C5: an instrument with a daily return strictly below -0.5 or strictly
above 2 is removed entirely from the final `prices`, `sigmas`, `volumes`
and `returns`; consequently every present daily return of every instrument
remaining in the final returns matrix lies in [-0.5, 2]. -/
theorem c5_dubious_returns (log : ℚ → ℚ) (u : List String) (rf : String)
    (src : String → Option RawTable) (pfix : DF) (res : Realized)
    (hfix : fixRiskFree rf (pricesRaw u src) = some pfix)
    (hres : fetchReturnData log u rf src = some res) :
    (∀ c, c ∈ dubiousCols (returnsStage
        (coreFrames ⟨pfix, sigmasRaw log u src, volumesRaw u src⟩).prices) →
      c ∉ res.prices.cols ∧ c ∉ res.sigmas.cols ∧ c ∉ res.volumes.cols ∧
      c ∉ res.returns.cols) ∧
    (∀ c, c ∈ res.returns.cols → ∀ d, d ∈ res.returns.rows → ∀ v : ℚ,
      res.returns.entry d c = some v → (-0.5 : ℚ) ≤ v ∧ v ≤ 2.0) := by
  simp only [fetchReturnData, hfix] at hres
  have hre : computeOutputs (dataOf u src)
      (coreFrames ⟨pfix, sigmasRaw log u src, volumesRaw u src⟩) = res :=
    Option.some.inj hres
  constructor
  · intro c hc
    refine ⟨?_, ?_, ?_, ?_⟩
    · intro hmem
      rw [← hre, computeOutputs_prices_cols] at hmem
      have h2 := (List.dropLast_sublist _).mem hmem
      rw [List.mem_filter, decide_eq_true_iff] at h2
      exact h2.2 hc
    · intro hmem
      rw [← hre, computeOutputs_sigmas_cols] at hmem
      have h2 := (List.dropLast_sublist _).mem hmem
      rw [List.mem_filter, decide_eq_true_iff] at h2
      exact h2.2 hc
    · intro hmem
      rw [← hre, computeOutputs_volumes_cols] at hmem
      have h2 := (List.dropLast_sublist _).mem hmem
      rw [List.mem_filter, decide_eq_true_iff] at h2
      exact h2.2 hc
    · intro hmem
      rw [← hre, computeOutputs_returns, DF.dropColsIn] at hmem
      simp only [List.mem_filter, decide_eq_true_iff] at hmem
      exact hmem.2 hc
  · intro c hcol d hd v hv
    rw [← hre, computeOutputs_returns] at hcol hd hv
    rw [DF.dropColsIn] at hcol
    simp only [List.mem_filter, decide_eq_true_iff] at hcol
    have hnot := hcol.2
    rw [mem_dubiousCols] at hnot
    constructor
    · by_contra hlt
      exact hnot ⟨hcol.1, d, hd, v, hv, Or.inl (lt_of_not_ge hlt)⟩
    · by_contra hgt
      exact hnot ⟨hcol.1, d, hd, v, hv, Or.inr (lt_of_not_ge hgt)⟩

unseal Rat.add Rat.mul Rat.sub Rat.inv Rat.ofScientific in
/-- Witness for C5: the return 0 of retained instrument `AAA` at date 2 of
the dense scenario lies within the dubious-return bounds. -/
theorem c5_dubious_returns_witness : (-0.5 : ℚ) ≤ 0 ∧ (0 : ℚ) ≤ 2.0 :=
  (c5_dubious_returns lg0 uG "USDOLLAR" srcG pfixG resG (by rfl) (by rfl)).2
    "AAA" (by decide) 2 (by decide) 0 (by decide)

/-- Forward filling with a present carry yields a present value at every
index entry. -/
theorem ffillVal_isSome_of_carry (f : Nat → Option ℚ) :
    ∀ (rows : List Nat) (carry : Option ℚ) (d : Nat), d ∈ rows → carry.isSome = true →
      (ffillVal f carry rows d).isSome = true := by
  intro rows
  induction rows with
  | nil =>
    intro carry d hd
    cases hd
  | cons r rs ih =>
    intro carry d hd hc
    show (if r = d then (match f r with | some x => some x | none => carry)
          else ffillVal f (match f r with | some x => some x | none => carry) rs d).isSome
          = true
    have hcar : (match f r with | some x => some x | none => carry).isSome = true := by
      rcases hfr : f r with _ | x
      · exact hc
      · rfl
    by_cases hrd : r = d
    · rw [if_pos hrd]
      exact hcar
    · rw [if_neg hrd]
      have hdm : d ∈ rs := by
        rcases List.mem_cons.1 hd with rfl | h
        · exact absurd rfl hrd
        · exact h
      exact ih _ d hdm hcar

/-- Forward filling a column that has a present value among its first two
index entries yields present values on the whole tail of the index. -/
theorem ffillVal_tail_isSome (f : Nat → Option ℚ) :
    ∀ rows : List Nat, rows.Nodup →
      (∃ d0 ∈ rows.take 2, (f d0).isSome = true) →
      ∀ d ∈ rows.tail, (ffillVal f none rows d).isSome = true := by
  intro rows hnd hex d hd
  cases rows with
  | nil => cases hd
  | cons r0 rs =>
    replace hd : d ∈ rs := hd
    have hr0d : ¬ r0 = d := by
      intro he
      exact (List.nodup_cons.1 hnd).1 (he ▸ hd)
    show (if r0 = d then (match f r0 with | some x => some x | none => (none : Option ℚ))
          else ffillVal f (match f r0 with | some x => some x | none => none) rs d).isSome
          = true
    rw [if_neg hr0d]
    rcases hex with ⟨d0, hd0, hsome⟩
    have hd0m : d0 ∈ r0 :: rs.take 1 := by simpa using hd0
    rcases List.mem_cons.1 hd0m with rfl | hd0t
    · rcases hfr : f d0 with _ | x
      · rw [hfr] at hsome
        cases hsome
      · exact ffillVal_isSome_of_carry f rs (some x) d hd rfl
    · cases rs with
      | nil => cases hd
      | cons d1 rs2 =>
        have hs1 : (f d1).isSome = true := by
          have he : d0 = d1 := by simpa using hd0t
          rwa [he] at hsome
        show (if d1 = d then (match f d1 with
                | some x => some x
                | none => (match f r0 with | some x => some x | none => (none : Option ℚ)))
              else ffillVal f (match f d1 with
                | some x => some x
                | none => (match f r0 with | some x => some x | none => none)) rs2 d).isSome
              = true
        rcases hf1 : f d1 with _ | x
        · rw [hf1] at hs1
          cases hs1
        · by_cases hd1d : d1 = d
          · rw [if_pos hd1d]
            rfl
          · rw [if_neg hd1d]
            have hdm : d ∈ rs2 := by
              rcases List.mem_cons.1 hd with rfl | h
              · exact absurd rfl hd1d
              · exact h
            exact ffillVal_isSome_of_carry f rs2 (some x) d hdm rfl

/-- C3 amended: after the forward fill and the unconditional removal of the
first remaining row, a matrix whose every column (dates being distinct) has
a present value among its first two pre-fill rows contains no missing
values.  This is the per-matrix content of the pipeline's gap-fill step,
applied by `gapFillFrames` to `prices`, `sigmas` and `volumes` alike; the
counterexample shows the unconditional claim fails for columns that are
missing on every early row. -/
theorem c3_no_missing_amended (df : DF) (hnd : df.rows.Nodup)
    (hcols : ∀ c ∈ df.cols, ∃ d0 ∈ df.rows.take 2, (df.entry d0 c).isSome = true) :
    ∀ d ∈ df.ffill.dropFirstRow.rows, ∀ c ∈ df.ffill.dropFirstRow.cols,
      ((df.ffill.dropFirstRow).entry d c).isSome = true := by
  intro d hd c hc
  exact ffillVal_tail_isSome (fun r => df.entry r c) df.rows hnd (hcols c hc) d hd

/-- A one-column frame missing only its first value. -/
def dfW3 : DF := ⟨[0, 1, 2], ["A"], fun d _ => if d = 0 then none else some 5⟩

/-- Witness for C3 (amended): with a present value in the second row, the
gap-filled and lead-dropped frame is present at date 1. -/
theorem c3_no_missing_amended_witness : ((dfW3.ffill.dropFirstRow).entry 1 "A").isSome = true :=
  c3_no_missing_amended dfW3 (by decide) (by decide) 1 (by decide) "A" (by decide)

/-- Raw prices columns are the downloaded keys. -/
theorem pricesRaw_cols (u : List String) (src : String → Option RawTable) :
    (pricesRaw u src).cols = firstDedup (keysOf u src) := rfl

/-- Raw volumes columns are the downloaded keys. -/
theorem volumesRaw_cols (u : List String) (src : String → Option RawTable) :
    (volumesRaw u src).cols = firstDedup (keysOf u src) := rfl

/-- Raw sigmas columns are the downloaded keys (the aligned difference of
two frames with identical columns). -/
theorem sigmasRaw_cols (log : ℚ → ℚ) (u : List String) (src : String → Option RawTable) :
    (sigmasRaw log u src).cols = firstDedup (keysOf u src) := by
  show colUnion (firstDedup (keysOf u src)) (firstDedup (keysOf u src))
      = firstDedup (keysOf u src)
  exact colUnion_self _

/-- Columns of the sigmas matrix after the filter chain. -/
theorem coreFrames_sigmas_cols (fr : Frames) :
    (coreFrames fr).sigmas.cols =
      fr.sigmas.cols.filter (fun c => decide (c ∉ badAssetCols fr.prices)) := rfl

/-- Columns of the volumes matrix after the filter chain. -/
theorem coreFrames_volumes_cols (fr : Frames) :
    (coreFrames fr).volumes.cols =
      fr.volumes.cols.filter (fun c => decide (c ∉ badAssetCols fr.prices)) := rfl

/-- Rows of the prices matrix after the filter chain. -/
theorem coreFrames_prices_rows (fr : Frames) :
    (coreFrames fr).prices.rows =
      (fr.prices.rows.filter
        (fun d => decide (d ∉ badDaysOf (filterBadAssets fr)))).tail := rfl

/-- Rows of the sigmas matrix after the filter chain. -/
theorem coreFrames_sigmas_rows (fr : Frames) :
    (coreFrames fr).sigmas.rows =
      (fr.sigmas.rows.filter
        (fun d => decide (d ∉ badDaysOf (filterBadAssets fr)))).tail := rfl

/-- Rows of the volumes matrix after the filter chain. -/
theorem coreFrames_volumes_rows (fr : Frames) :
    (coreFrames fr).volumes.rows =
      (fr.volumes.rows.filter
        (fun d => decide (d ∉ badDaysOf (filterBadAssets fr)))).tail := rfl

/-- Final prices rows: unchanged from the gap-filled frame. -/
theorem computeOutputs_prices_rows (data : List (String × RawTable)) (fr : Frames) :
    (computeOutputs data fr).prices.rows = fr.prices.rows := rfl

/-- Final sigmas rows: unchanged from the gap-filled frame. -/
theorem computeOutputs_sigmas_rows (data : List (String × RawTable)) (fr : Frames) :
    (computeOutputs data fr).sigmas.rows = fr.sigmas.rows := rfl

/-- Final volumes rows: the aligned union with the prices rows created by
the dollar-volume product. -/
theorem computeOutputs_volumes_rows (data : List (String × RawTable)) (fr : Frames) :
    (computeOutputs data fr).volumes.rows = sortDedup (fr.volumes.rows ++ fr.prices.rows) := rfl

/-- Rows of the return stage: the aligned prices rows less the first. -/
theorem returnsStage_rows (p : DF) :
    (returnsStage p).rows = (sortDedup (p.rows ++ p.rows)).tail := rfl

/-- Columns of the return stage. -/
theorem returnsStage_cols (p : DF) :
    (returnsStage p).cols = colUnion p.cols p.cols := rfl

/-- C2 amended: provided the extracted prices, sigmas and volumes frames
start from the same date index (as they do whenever every fetched table
supplies price, open, close and volume fields), the final prices, sigmas
and volumes matrices share identical column lists and identical row lists,
and the returns matrix's row list is that shared row list without its
first date; the risk-free column is retained in `returns` whenever the
risk-free instrument itself survives the missing-data filter and the
dubious-return filter.  The counterexample refutes the original "exactly
the same row set" and the unconditional risk-free retention. -/
theorem c2_alignment_amended (log : ℚ → ℚ) (u : List String) (rf : String)
    (src : String → Option RawTable) (pfix : DF) (res : Realized)
    (hfix : fixRiskFree rf (pricesRaw u src) = some pfix)
    (hres : fetchReturnData log u rf src = some res)
    (hsr : (sigmasRaw log u src).rows = (pricesRaw u src).rows)
    (hvr : (volumesRaw u src).rows = (pricesRaw u src).rows) :
    (res.prices.cols = res.sigmas.cols ∧ res.prices.cols = res.volumes.cols) ∧
    (res.prices.rows = res.sigmas.rows ∧ res.prices.rows = res.volumes.rows) ∧
    res.returns.rows = res.prices.rows.tail ∧
    (rf ∉ badAssetCols pfix →
      rf ∉ dubiousCols (returnsStage
        (coreFrames ⟨pfix, sigmasRaw log u src, volumesRaw u src⟩).prices) →
      rf ∈ res.returns.cols) := by
  obtain ⟨hrowp, hcolp, hrfmem⟩ := fixRiskFree_eq_some hfix
  simp only [fetchReturnData, hfix] at hres
  have hre := Option.some.inj hres
  subst hre
  have hsc : (sigmasRaw log u src).cols = pfix.cols := by
    rw [sigmasRaw_cols, hcolp, pricesRaw_cols]
  have hvc : (volumesRaw u src).cols = pfix.cols := by
    rw [volumesRaw_cols, hcolp, pricesRaw_cols]
  have hsr2 : (sigmasRaw log u src).rows = pfix.rows := by rw [hsr, hrowp]
  have hvr2 : (volumesRaw u src).rows = pfix.rows := by rw [hvr, hrowp]
  have hpair0 : List.Pairwise (· < ·) pfix.rows := by
    rw [hrowp]
    exact fromDict_rows_pairwise _ _
  have hpair3 : List.Pairwise (· < ·)
      ((pfix.rows.filter (fun d => decide (d ∉ badDaysOf (filterBadAssets
        ⟨pfix, sigmasRaw log u src, volumesRaw u src⟩)))).tail) :=
    List.Pairwise.sublist (List.tail_sublist _)
      (List.Pairwise.sublist (List.filter_sublist _) hpair0)
  refine ⟨⟨?_, ?_⟩, ⟨?_, ?_⟩, ?_, ?_⟩
  · rw [computeOutputs_prices_cols, computeOutputs_sigmas_cols,
      coreFrames_prices_cols, coreFrames_sigmas_cols]
    show ((pfix.cols.filter _).filter _).dropLast =
      (((sigmasRaw log u src).cols.filter _).filter _).dropLast
    rw [hsc]
  · rw [computeOutputs_prices_cols, computeOutputs_volumes_cols, mulAlign_cols,
      coreFrames_prices_cols, coreFrames_volumes_cols]
    show ((pfix.cols.filter _).filter _).dropLast =
      ((colUnion ((volumesRaw u src).cols.filter _) (pfix.cols.filter _)).filter _).dropLast
    rw [hvc, colUnion_self]
  · rw [computeOutputs_prices_rows, computeOutputs_sigmas_rows,
      coreFrames_prices_rows, coreFrames_sigmas_rows]
    show (pfix.rows.filter _).tail = ((sigmasRaw log u src).rows.filter _).tail
    rw [hsr2]
  · rw [computeOutputs_prices_rows, computeOutputs_volumes_rows,
      coreFrames_prices_rows, coreFrames_volumes_rows]
    show (pfix.rows.filter _).tail =
      sortDedup (((volumesRaw u src).rows.filter _).tail ++ ((coreFrames _).prices.rows))
    rw [coreFrames_prices_rows]
    show (pfix.rows.filter _).tail =
      sortDedup (((volumesRaw u src).rows.filter _).tail ++ (pfix.rows.filter _).tail)
    rw [hvr2, sortDedup_append_self hpair3]
  · rw [computeOutputs_prices_rows, computeOutputs_returns, dropColsIn_rows,
      returnsStage_rows, coreFrames_prices_rows]
    show (sortDedup ((pfix.rows.filter _).tail ++ (pfix.rows.filter _).tail)).tail =
      ((pfix.rows.filter _).tail).tail
    rw [sortDedup_append_self hpair3]
  · intro hnb hnd
    rw [computeOutputs_returns, dropColsIn_cols, List.mem_filter]
    refine ⟨?_, by rwa [decide_eq_true_iff]⟩
    rw [returnsStage_cols, coreFrames_prices_cols, colUnion_self, List.mem_filter]
    refine ⟨?_, by rwa [decide_eq_true_iff]⟩
    rw [hcolp]
    exact hrfmem

unseal Rat.add Rat.mul Rat.sub Rat.inv Rat.ofScientific in
/-- Witness for C2 (amended): in the dense scenario the returns row list is
the shared prices row list without its first date. -/
theorem c2_alignment_amended_witness : resG.returns.rows = resG.prices.rows.tail :=
  (c2_alignment_amended lg0 uG "USDOLLAR" srcG pfixG resG (by rfl) (by rfl)
    (by decide) (by decide)).2.2.1
